import Mathlib

/-!
Verification of the flyllm request-dispatch engine.

This file embeds, in Lean, the data model and operations of the flyllm load
balancer (src/errors.rs, src/config/loader.rs, src/load_balancer/{manager,
tracker, strategies, types}.rs, src/providers/openai.rs) and proves or refutes
the specification claims about them.

Modelling conventions:
* Machine integers (`usize`, `u64`, `u32`) are modelled as `Nat`; none of the
  embedded computations can overflow on the inputs the theorems quantify over.
* `Instant` timestamps and `Duration` values are abstract `Nat` ticks
  (nanoseconds for durations).
* The adapter HTTP call is abstracted as an oracle
  `Nat → Nat → Except LlmError String` taking the attempt counter and the
  selected instance id; this models the nondeterministic upstream.
* The `HashMap` of trackers is modelled as an association list in insertion
  order; the claims proved here are insensitive to iteration order.
* `async`/await concurrency is flattened: each request's dispatch loop is a
  pure function of the oracle, and `join_all` preserves positional order.
-/

namespace FlyLlm

/-- Error taxonomy from src/errors.rs (`LlmError`). `RequestError` carries only
the message of the underlying transport error in this embedding. -/
inductive LlmError where
  | RequestError (msg : String)
  | ApiError (msg : String)
  | RateLimit (msg : String)
  | ParseError (msg : String)
  | ProviderDisabled (msg : String)
  | ConfigError (msg : String)
deriving DecidableEq, Repr

/-- The `matches!(error, LlmError::RateLimit(_))` test from
`LlmManager::generate_response` (src/load_balancer/manager.rs line 620). -/
def LlmError.isRateLimit : LlmError → Bool
  | .RateLimit _ => true
  | _ => false

/-- Recognizer for the `ConfigError` constructor. -/
def LlmError.isConfigError : LlmError → Bool
  | .ConfigError _ => true
  | _ => false

/-- The `Display` implementation for `LlmError` (src/errors.rs lines 22-33). -/
def LlmError.toMessage : LlmError → String
  | .RequestError m => "Request error: " ++ m
  | .ApiError m => "API error: " ++ m
  | .RateLimit m => "Rate limit error: " ++ m
  | .ParseError m => "Parse error: " ++ m
  | .ProviderDisabled m => "Provider disabled: " ++ m
  | .ConfigError m => "Configuration error: " ++ m

/-- Substring scan: `n` occurs as a contiguous run of `haystack`. Models Rust
`str::contains`. -/
def infixOfAux (n : List Char) : List Char → Bool
  | [] => n.isEmpty
  | c :: rest => n.isPrefixOf (c :: rest) || infixOfAux n rest

/-- `haystack.contains(needle)` on strings. -/
def stringContains (haystack needle : String) : Bool :=
  infixOfAux needle.data haystack.data

/-- ASCII lowercasing; the keyword matching in src/errors.rs only involves
ASCII keywords, for which Rust `to_lowercase` agrees with this map. -/
def asciiLower (s : String) : String :=
  String.mk (s.data.map Char.toLower)

/-- The rate-limit keywords checked by `LlmError::from_api_response`
(src/errors.rs lines 84-88). -/
def rateLimitKeywords : List String :=
  ["rate limit", "too many requests", "quota exceeded", "overloaded", "throttle"]

/-- `LlmError::from_api_response` (src/errors.rs lines 77-93): status 429 or a
case-insensitive keyword match in the body yields `RateLimit`, anything else
`ApiError`. -/
def LlmError.from_api_response (status : Nat) (errorMessage : String) : LlmError :=
  if status = 429 then .RateLimit errorMessage
  else
    let msgLower := asciiLower errorMessage
    if rateLimitKeywords.any (fun kw => stringContains msgLower kw) then
      .RateLimit errorMessage
    else
      .ApiError errorMessage

/-- The HTTP-status handling of `OpenAIInstance::generate`
(src/providers/openai.rs lines 125-129): any non-2xx status is mapped to
`ApiError` with the body appended; there is no 429 or keyword check. Returns
`none` when the status is a success (2xx). -/
def openaiGenerateHttpError (status : Nat) (errorText : String) : Option LlmError :=
  if 200 ≤ status ∧ status ≤ 299 then none
  else some (.ApiError ("OpenAI API error: " ++ errorText))

/-- The strategy whitelist of `validate_config` (src/config/loader.rs line 163). -/
def validStrategies : List String := ["lru", "lowest_latency", "random"]

/-- The strategy check of `validate_config` (src/config/loader.rs lines
162-174). The error message is abbreviated (the source adds the list of valid
strategies); acceptance is faithful. -/
def validateStrategyCheck (strategy : String) : Except LlmError Unit :=
  if validStrategies.contains (asciiLower strategy) then .ok ()
  else .error (.ConfigError ("Unknown strategy " ++ strategy))

/-- The three load-balancing strategy variants. -/
inductive StrategyKind where
  | lru
  | lowestLatency
  | random
deriving DecidableEq, Repr

/-- The strategy construction match of `LlmManager::from_config`
(src/load_balancer/manager.rs lines 104-111): it also recognizes the aliases
`least_recently_used` and `latency` and silently defaults anything unknown to
least-recently-used. -/
def strategyFromConfig (s : String) : StrategyKind :=
  match asciiLower s with
  | "lru" | "least_recently_used" => .lru
  | "lowest_latency" | "latency" => .lowestLatency
  | "random" => .random
  | _ => .lru

/-- `InstanceTracker` metric fields (src/load_balancer/tracker.rs lines 7-13).
`last_used` is an abstract monotonic timestamp, `response_times` are durations
in nanoseconds. The `instance` Arc is modelled separately (`ManagerInstance`). -/
structure InstanceTracker where
  last_used : Nat
  response_times : List Nat
  request_count : Nat
  error_count : Nat
deriving DecidableEq, Repr

/-- `InstanceTracker::new` (src/load_balancer/tracker.rs lines 21-29), with
`now` the creation instant. -/
def InstanceTracker.new (now : Nat) : InstanceTracker :=
  { last_used := now, response_times := [], request_count := 0, error_count := 0 }

/-- `InstanceTracker::record_result` (src/load_balancer/tracker.rs lines
36-50): update `last_used` to the current instant `now`, bump `request_count`;
on success push the duration and drop the oldest entry once the window holds
more than 10; on failure bump `error_count`. -/
def InstanceTracker.record_result (t : InstanceTracker) (now dur : Nat)
    (ok : Bool) : InstanceTracker :=
  let t1 : InstanceTracker :=
    { t with last_used := now, request_count := t.request_count + 1 }
  if ok then
    let rts := t1.response_times ++ [dur]
    { t1 with response_times := if rts.length > 10 then rts.tail else rts }
  else
    { t1 with error_count := t1.error_count + 1 }

/-- `InstanceTracker::avg_response_time` (src/load_balancer/tracker.rs lines
56-62): zero for an empty window, otherwise the truncating mean. -/
def InstanceTracker.avg_response_time (t : InstanceTracker) : Nat :=
  if t.response_times.isEmpty then 0
  else t.response_times.sum / (max t.response_times.length 1)

/-- `InstanceTracker::get_error_rate` denominator guard
(src/load_balancer/tracker.rs lines 68-74), modelled on naturals scaled by no
factor: here only the zero-guard structure matters. -/
def InstanceTracker.error_rate_is_zero_when_unused (t : InstanceTracker) : Bool :=
  t.request_count = 0

/-- The scanning loop shared by `LeastRecentlyUsedStrategy::select_instance`
and `LowestLatencyStrategy::select_instance` (src/load_balancer/strategies.rs
lines 50-58 and 97-106): walk the remaining trackers keeping the index of the
best value seen so far, replacing only on a strictly smaller value. -/
def selectMinAux (f : InstanceTracker → Nat) :
    List (Nat × InstanceTracker) → Nat → Nat → Nat → Nat
  | [], bestIdx, _, _ => bestIdx
  | p :: rest, bestIdx, bestVal, i =>
    if f p.2 < bestVal then selectMinAux f rest i (f p.2) (i + 1)
    else selectMinAux f rest bestIdx bestVal (i + 1)

/-- `LeastRecentlyUsedStrategy::select_instance`
(src/load_balancer/strategies.rs lines 45-66). The source panics on an empty
slice; the model returns 0 there, and every theorem assumes nonemptiness. -/
def LeastRecentlyUsedStrategy.select_instance
    (trackers : List (Nat × InstanceTracker)) : Nat :=
  match trackers with
  | [] => 0
  | p :: rest => selectMinAux (fun t => t.last_used) rest 0 p.2.last_used 1

/-- `LowestLatencyStrategy::select_instance`
(src/load_balancer/strategies.rs lines 92-114). -/
def LowestLatencyStrategy.select_instance
    (trackers : List (Nat × InstanceTracker)) : Nat :=
  match trackers with
  | [] => 0
  | p :: rest =>
    selectMinAux InstanceTracker.avg_response_time rest 0
      p.2.avg_response_time 1

/-- The per-instance data the dispatcher reads from an `LlmInstance`
(src/providers/instances.rs): its enabled flag and the key set of its
supported-task map, in insertion order. -/
structure ManagerInstance where
  enabled : Bool
  supportedTasks : List String
deriving DecidableEq, Repr

/-- The `LlmManager` state the dispatcher reads (src/load_balancer/manager.rs
lines 29-38): the tracker map keyed by instance id (holding each instance),
the task-to-instances routing index, the id counter and the retry budget. -/
structure ManagerState where
  instances : List (Nat × ManagerInstance)
  tasksToInstances : List (String × List Nat)
  instanceCounter : Nat
  maxRetries : Nat
deriving DecidableEq, Repr

/-- `constants::DEFAULT_MAX_TRIES` (src/constants.rs). -/
def DEFAULT_MAX_TRIES : Nat := 5

/-- `LlmManager::new` / `new_with_strategy_and_retries`
(src/load_balancer/manager.rs lines 42-55 and 198-212): empty maps, counter 0. -/
def LlmManager.new (maxRetries : Nat) : ManagerState :=
  { instances := [], tasksToInstances := [], instanceCounter := 0,
    maxRetries := maxRetries }

/-- `task_map.entry(task).or_insert_with(Vec::new).push(id)`
(src/load_balancer/manager.rs lines 269-277) on the association-list model. -/
def pushTaskEntry : List (String × List Nat) → String → Nat →
    List (String × List Nat)
  | [], task, id => [(task, [id])]
  | p :: rest, task, id =>
    if p.1 = task then (p.1, p.2 ++ [id]) :: rest
    else p :: pushTaskEntry rest task id

/-- `LlmManager::add_instance_to_manager` (src/load_balancer/manager.rs lines
254-288): take a fresh id from the counter, register the id under every
supported task name, and insert the tracker (here: the instance data). -/
def addInstanceToManager (st : ManagerState) (inst : ManagerInstance) :
    ManagerState :=
  let id := st.instanceCounter
  { st with
    instanceCounter := id + 1
    tasksToInstances :=
      inst.supportedTasks.foldl (fun m t => pushTaskEntry m t id)
        st.tasksToInstances
    instances := st.instances ++ [(id, inst)] }

/-- A manager populated by repeated `add_instance` calls, as done by the
builder and by `from_config`. -/
def buildManager (insts : List ManagerInstance) (maxRetries : Nat) :
    ManagerState :=
  insts.foldl addInstanceToManager (LlmManager.new maxRetries)

/-- Association-list lookup modelling `HashMap::get` on the routing index. -/
def lookupTM : List (String × List Nat) → String → Option (List Nat)
  | [], _ => none
  | p :: rest, t => if p.1 = t then some p.2 else lookupTM rest t

/-- `self.tasks_to_instances.get(task_name).cloned()`
(src/load_balancer/manager.rs lines 713-719). -/
def lookupTask (st : ManagerState) (t : String) : Option (List Nat) :=
  lookupTM st.tasksToInstances t

/-- Candidate derivation (src/load_balancer/manager.rs lines 713-719): the
routing-index entry when the request names a task, `none` (all instances)
otherwise. -/
def candidateIds (st : ManagerState) (task : Option String) :
    Option (List Nat) :=
  match task with
  | some t => lookupTask st t
  | none => none

/-- Error text of the unmapped-task failure
(src/load_balancer/manager.rs lines 724-730). -/
def noProvidersForTaskMsg (t : String) : String :=
  "No providers available for task: " ++ t

/-- Error text of the empty-filter failure (src/load_balancer/manager.rs lines
817-828); the source additionally quotes the task name, the quotes are dropped
here. -/
def noEligibleMsg (task : Option String) (failed : List Nat) : String :=
  "No enabled providers available" ++
    (match task with
     | some t => " for task: " ++ t
     | none => "") ++
    (if failed.isEmpty then ""
     else " (excluded " ++ toString failed.length ++ " failed instances)")

/-- The candidate filter of `LlmManager::instance_selection`
(src/load_balancer/manager.rs lines 758-814): retain instances that are in the
candidate list (when one exists), enabled, and not in `failed_instances`, and
keep their ids. -/
def eligibleIds (st : ManagerState) (candidates : Option (List Nat))
    (failed : List Nat) : List Nat :=
  match candidates with
  | some ids =>
    (st.instances.filter
      (fun p => ids.contains p.1 && p.2.enabled && !(failed.contains p.1))).map
      (fun p => p.1)
  | none =>
    (st.instances.filter
      (fun p => p.2.enabled && !(failed.contains p.1))).map (fun p => p.1)

/-- The selection phase of `LlmManager::instance_selection`
(src/load_balancer/manager.rs lines 700-851): candidate derivation, the
unmapped-task and empty-registry checks, the eligibility filter, and the
strategy pick. `choice` abstracts `strategy.select_instance` on the eligible
id list; a well-behaved strategy returns an index below the list length. -/
def selectCandidate (st : ManagerState) (choice : List Nat → Nat)
    (task : Option String) (failed : List Nat) : Except LlmError Nat :=
  let cands := candidateIds st task
  if task.isSome && cands.isNone then
    .error (.ConfigError (noProvidersForTaskMsg (task.getD "")))
  else if st.instances.isEmpty then
    .error (.ConfigError "No LLM providers available")
  else
    let elig := eligibleIds st cands failed
    if elig.isEmpty then
      .error (.ConfigError (noEligibleMsg task failed))
    else
      .ok (elig.getD (choice elig) 0)

/-- `LlmManager::instance_selection` end to end: on a selection-phase failure
the source returns the error paired with sentinel instance id 0
(src/load_balancer/manager.rs lines 724-730, 751-754, 817-828); otherwise the
selected instance's adapter is invoked (abstracted by `oracle`) and its
outcome is paired with the selected id. -/
def instanceSelection (st : ManagerState) (choice : List Nat → Nat)
    (oracle : Nat → Except LlmError String) (task : Option String)
    (failed : List Nat) : Except (LlmError × Nat) (String × Nat) :=
  match selectCandidate st choice task failed with
  | .error e => .error (e, 0)
  | .ok id =>
    match oracle id with
    | .ok content => .ok (content, id)
    | .error e => .error (e, id)

/-- `min(2^attempts, 60)` of the backoff sleep
(src/load_balancer/manager.rs lines 627-628). -/
def backoffSecs (attempts : Nat) : Nat := min (2 ^ attempts) 60

/-- Ghost instrumentation of one `generate_response` run: the ids whose
adapters were invoked (in order), the backoff sleeps performed (seconds, in
order), and the `failed_instances` value at the start of each loop iteration. -/
structure DispatchTrace where
  invocations : List Nat
  sleeps : List Nat
  failedSets : List (List Nat)
deriving DecidableEq, Repr

/-- The retry loop of `LlmManager::generate_response`
(src/load_balancer/manager.rs lines 565-679), instrumented with a
`DispatchTrace`. `fuel` is a ghost structural bound; the wrapper `genLoop`
instantiates it with `maxRetries + 1 - attempts`, which is exact: the loop
body runs once per unit of fuel. On a failed attempt the source sleeps
`backoffSecs attempts` for a rate-limit error (leaving `failed` unchanged) and
otherwise appends the failing id; either way it increments `attempts` and
returns the error as soon as `attempts > maxRetries`. -/
def genLoopAux (st : ManagerState) (choice : List Nat → Nat)
    (oracle : Nat → Nat → Except LlmError String) (task : Option String)
    (maxRetries : Nat) :
    Nat → Nat → List Nat → Except LlmError String × DispatchTrace
  | 0, _, _ =>
    (.error (.ConfigError "No available providers after all retry attempts"),
      ⟨[], [], []⟩)
  | fuel + 1, attempts, failed =>
    if attempts ≤ maxRetries then
      match selectCandidate st choice task failed with
      | .error e =>
        let failed2 := if e.isRateLimit then failed else failed ++ [0]
        let sl : List Nat := if e.isRateLimit then [backoffSecs attempts] else []
        if attempts + 1 > maxRetries then (.error e, ⟨[], sl, [failed]⟩)
        else
          let r := genLoopAux st choice oracle task maxRetries fuel
            (attempts + 1) failed2
          (r.1, ⟨r.2.invocations, sl ++ r.2.sleeps, failed :: r.2.failedSets⟩)
      | .ok id =>
        match oracle attempts id with
        | .ok content => (.ok content, ⟨[id], [], [failed]⟩)
        | .error e =>
          let failed2 := if e.isRateLimit then failed else failed ++ [id]
          let sl : List Nat :=
            if e.isRateLimit then [backoffSecs attempts] else []
          if attempts + 1 > maxRetries then (.error e, ⟨[id], sl, [failed]⟩)
          else
            let r := genLoopAux st choice oracle task maxRetries fuel
              (attempts + 1) failed2
            (r.1,
              ⟨id :: r.2.invocations, sl ++ r.2.sleeps,
                failed :: r.2.failedSets⟩)
    else
      (.error (.ConfigError "No available providers after all retry attempts"),
        ⟨[], [], []⟩)

/-- The retry loop entered at a given `attempts` / `failed_instances` pair. -/
def genLoop (st : ManagerState) (choice : List Nat → Nat)
    (oracle : Nat → Nat → Except LlmError String) (task : Option String)
    (maxRetries attempts : Nat) (failed : List Nat) :
    Except LlmError String × DispatchTrace :=
  genLoopAux st choice oracle task maxRetries (maxRetries + 1 - attempts)
    attempts failed

/-- `GenerationRequest` (src/load_balancer/types.rs lines 8-12); parameter
values are opaque strings here. -/
structure GenerationRequest where
  prompt : String
  task : Option String
  params : Option (List (String × String))
deriving DecidableEq, Repr

/-- `LlmManagerRequest` (src/load_balancer/types.rs lines 65-71). -/
structure LlmManagerRequest where
  prompt : String
  task : Option String
  params : Option (List (String × String))
  attempts : Nat
  failed_instances : List Nat
deriving DecidableEq, Repr

/-- `LlmManagerRequest::from_generation_request`
(src/load_balancer/types.rs lines 75-83): fresh retry state. -/
def LlmManagerRequest.from_generation_request (r : GenerationRequest) :
    LlmManagerRequest :=
  { prompt := r.prompt, task := r.task, params := r.params, attempts := 0,
    failed_instances := [] }

/-- `LlmManager::generate_response` with the default retry budget
(all call sites pass `max_attempts = None`). -/
def generateResponse (st : ManagerState) (choice : List Nat → Nat)
    (oracle : Nat → Nat → Except LlmError String) (req : LlmManagerRequest) :
    Except LlmError String × DispatchTrace :=
  genLoop st choice oracle req.task st.maxRetries req.attempts
    req.failed_instances

/-- `LlmManagerResponse` (src/load_balancer/types.rs lines 88-92). -/
structure LlmManagerResponse where
  content : String
  success : Bool
  error : Option String
deriving DecidableEq, Repr

/-- The per-request result wrapping shared by `generate_sequentially` and
`batch_generate` (src/load_balancer/manager.rs lines 329-346 and 379-396). -/
def toManagerResponse (r : Except LlmError String) : LlmManagerResponse :=
  match r with
  | .ok content => { content := content, success := true, error := none }
  | .error e => { content := "", success := false, error := some e.toMessage }

/-- `LlmManager::generate_sequentially` (src/load_balancer/manager.rs lines
309-355): one `generate_response` per request, in order; the oracle family is
indexed by the internal request. -/
def generateSequentially (st : ManagerState) (choice : List Nat → Nat)
    (oracle : LlmManagerRequest → Nat → Nat → Except LlmError String)
    (requests : List GenerationRequest) : List LlmManagerResponse :=
  requests.map (fun r =>
    let ir := LlmManagerRequest.from_generation_request r
    toManagerResponse (generateResponse st choice (oracle ir) ir).1)

/-- `LlmManager::batch_generate` (src/load_balancer/manager.rs lines 364-403):
requests are converted first, then dispatched; `join_all` returns results in
input order, which the list map models. -/
def batchGenerate (st : ManagerState) (choice : List Nat → Nat)
    (oracle : LlmManagerRequest → Nat → Nat → Except LlmError String)
    (requests : List GenerationRequest) : List LlmManagerResponse :=
  let internal := requests.map LlmManagerRequest.from_generation_request
  internal.map (fun ir =>
    toManagerResponse (generateResponse st choice (oracle ir) ir).1)

/-- `r` is the first index of a minimal `f`-value in `trackers` (and in
particular a valid index). -/
def IsFirstMinBy (f : InstanceTracker → Nat)
    (trackers : List (Nat × InstanceTracker)) (r : Nat) : Prop :=
  ∃ hr : r < trackers.length,
    (∀ j, ∀ hj : j < trackers.length,
      f (trackers.get ⟨r, hr⟩).2 ≤ f (trackers.get ⟨j, hj⟩).2) ∧
    (∀ j, ∀ hj : j < r,
      f (trackers.get ⟨r, hr⟩).2 < f (trackers.get ⟨j, Nat.lt_trans hj hr⟩).2)

/-! ### Sample manager states used by concrete runs -/

/-- A manager with one enabled instance supporting "chat". -/
def oneEnabledChat (mr : Nat) : ManagerState :=
  buildManager [⟨true, ["chat"]⟩] mr

/-- A manager with one disabled instance supporting "chat". -/
def oneDisabledChat (mr : Nat) : ManagerState :=
  buildManager [⟨false, ["chat"]⟩] mr

/-- Every id registered under task `T` in the routing index belongs to an
instance that declares support for `T`. -/
def RoutingInv (st : ManagerState) : Prop :=
  ∀ T ids, lookupTask st T = some ids →
    ∀ id ∈ ids, ∃ inst, (id, inst) ∈ st.instances ∧ T ∈ inst.supportedTasks

/-! ### Tracker invariants (C6) -/

/-- The spec's tracker invariant: errors never exceed requests and the latency
window holds at most 10 entries. -/
def TrackerInv (t : InstanceTracker) : Prop :=
  t.error_count ≤ t.request_count ∧ t.response_times.length ≤ 10

/-- Replay a list of `(now, duration, ok)` call records through
`record_result`. -/
def applyResults (t : InstanceTracker) (calls : List (Nat × Nat × Bool)) :
    InstanceTracker :=
  calls.foldl (fun t c => t.record_result c.1 c.2.1 c.2.2) t

theorem record_result_fields (t : InstanceTracker) (now dur : Nat) (ok : Bool) :
    (t.record_result now dur ok).last_used = now ∧
    (t.record_result now dur ok).request_count = t.request_count + 1 ∧
    (t.record_result now dur ok).error_count =
      t.error_count + (if ok then 0 else 1) := by
  unfold InstanceTracker.record_result
  cases ok
  · refine ⟨rfl, rfl, by simp⟩
  · dsimp only
    refine ⟨?_, ?_, ?_⟩ <;> (split <;> simp)

theorem record_result_fail_times (t : InstanceTracker) (now dur : Nat) :
    (t.record_result now dur false).response_times = t.response_times := by
  simp [InstanceTracker.record_result]

theorem record_result_ok_times (t : InstanceTracker) (now dur : Nat)
    (h : t.response_times.length ≤ 10) :
    (t.record_result now dur true).response_times =
      if t.response_times.length < 10 then t.response_times ++ [dur]
      else t.response_times.tail ++ [dur] := by
  have h1 : (t.record_result now dur true).response_times =
      (if (t.response_times ++ [dur]).length > 10 then
        (t.response_times ++ [dur]).tail
       else t.response_times ++ [dur]) := by
    simp [InstanceTracker.record_result]
  rw [h1]
  by_cases hlt : t.response_times.length < 10
  · rw [if_neg (by simp; omega), if_pos hlt]
  · rw [if_pos (by simp; omega), if_neg hlt]
    cases ht : t.response_times with
    | nil => rw [ht] at hlt; simp at hlt
    | cons a l => simp

theorem record_result_inv (t : InstanceTracker) (now dur : Nat) (ok : Bool)
    (h : TrackerInv t) : TrackerInv (t.record_result now dur ok) := by
  obtain ⟨he, hl⟩ := h
  obtain ⟨h1, h2, h3⟩ := record_result_fields t now dur ok
  constructor
  · rw [h2, h3]; split <;> omega
  · cases ok
    · rw [record_result_fail_times]; exact hl
    · rw [record_result_ok_times t now dur hl]
      split
      · simp; omega
      · cases ht : t.response_times with
        | nil => simp
        | cons a l =>
          rw [ht] at hl
          simp at hl ⊢
          omega

theorem applyResults_inv (calls : List (Nat × Nat × Bool)) :
    ∀ t : InstanceTracker, TrackerInv t → TrackerInv (applyResults t calls) := by
  induction calls with
  | nil => intro t h; exact h
  | cons c rest ih =>
    intro t h
    exact ih _ (record_result_inv t c.1 c.2.1 c.2.2 h)

/-- C6: for every `InstanceTracker`, after any sequence of `record_result`
calls starting from a fresh tracker, `error_count ≤ request_count` and
`response_times.len() ≤ 10`; each single call sets `last_used` to the call
instant, increments `request_count` exactly once, increments `error_count`
exactly on failure, leaves the window unchanged on failure, and on success
appends the latency, evicting the oldest entry when the length would
exceed 10. -/
theorem C6_tracker_record_result :
    (∀ (now0 : Nat) (calls : List (Nat × Nat × Bool)),
      TrackerInv (applyResults (InstanceTracker.new now0) calls)) ∧
    (∀ (t : InstanceTracker) (now dur : Nat) (ok : Bool),
      (t.record_result now dur ok).last_used = now ∧
      (t.record_result now dur ok).request_count = t.request_count + 1 ∧
      (t.record_result now dur ok).error_count =
        t.error_count + (if ok then 0 else 1) ∧
      (t.record_result now dur false).response_times = t.response_times) ∧
    (∀ (t : InstanceTracker) (now dur : Nat),
      t.response_times.length ≤ 10 →
      (t.record_result now dur true).response_times =
        if t.response_times.length < 10 then t.response_times ++ [dur]
        else t.response_times.tail ++ [dur]) := by
  refine ⟨?_, ?_, ?_⟩
  · intro now0 calls
    exact applyResults_inv calls _ (by constructor <;> simp [InstanceTracker.new])
  · intro t now dur ok
    obtain ⟨h1, h2, h3⟩ := record_result_fields t now dur ok
    exact ⟨h1, h2, h3, record_result_fail_times t now dur⟩
  · intro t now dur h
    exact record_result_ok_times t now dur h

/-- Witness for C6 at concrete inputs. -/
theorem C6_tracker_record_result_witness :
    TrackerInv (applyResults (InstanceTracker.new 0)
      [(1, 50, true), (2, 70, false), (3, 60, true)]) ∧
    ((InstanceTracker.mk 7 [5] 3 1).record_result 9 42 true).response_times =
      [5, 42] := by
  constructor
  · exact C6_tracker_record_result.1 0 [(1, 50, true), (2, 70, false), (3, 60, true)]
  · have h := C6_tracker_record_result.2.2 (InstanceTracker.mk 7 [5] 3 1) 9 42
      (by decide)
    simpa using h

/-! ### Strategy selection (C9) -/

theorem selectMinAux_spec (f : InstanceTracker → Nat)
    (rest : List (Nat × InstanceTracker)) :
    ∀ (bestIdx bestVal i : Nat),
      (selectMinAux f rest bestIdx bestVal i = bestIdx ∧
        ∀ p ∈ rest, bestVal ≤ f p.2) ∨
      (∃ k, ∃ hk : k < rest.length,
        selectMinAux f rest bestIdx bestVal i = i + k ∧
        f (rest.get ⟨k, hk⟩).2 < bestVal ∧
        (∀ p ∈ rest, f (rest.get ⟨k, hk⟩).2 ≤ f p.2) ∧
        (∀ j, ∀ hj : j < k, f (rest.get ⟨k, hk⟩).2 <
          f (rest.get ⟨j, Nat.lt_trans hj hk⟩).2)) := by
  induction rest with
  | nil =>
    intro bestIdx bestVal i
    left
    exact ⟨rfl, by simp⟩
  | cons a rest ih =>
    intro bestIdx bestVal i
    by_cases hfa : f a.2 < bestVal
    · have hstep : selectMinAux f (a :: rest) bestIdx bestVal i =
        selectMinAux f rest i (f a.2) (i + 1) := by
        simp [selectMinAux, hfa]
      rcases ih i (f a.2) (i + 1) with ⟨heq, hall⟩ | ⟨k, hk, heq, hlt, hmin, hfirst⟩
      · right
        refine ⟨0, by simp, ?_, ?_, ?_, ?_⟩
        · rw [hstep, heq]; omega
        · simpa using hfa
        · intro p hp
          rcases List.mem_cons.mp hp with h | h
          · subst h; simp
          · simpa using hall p h
        · intro j hj
          omega
      · right
        refine ⟨k + 1, by simp; omega, ?_, ?_, ?_, ?_⟩
        · rw [hstep, heq]; omega
        · simp only [List.get_cons_succ]
          exact lt_trans hlt hfa
        · intro p hp
          simp only [List.get_cons_succ]
          rcases List.mem_cons.mp hp with h | h
          · subst h; exact le_of_lt hlt
          · exact hmin p h
        · intro j hj
          simp only [List.get_cons_succ]
          cases j with
          | zero => simpa using hlt
          | succ j' =>
            have hj' : j' < k := by omega
            simpa using hfirst j' hj'
    · have hstep : selectMinAux f (a :: rest) bestIdx bestVal i =
        selectMinAux f rest bestIdx bestVal (i + 1) := by
        simp [selectMinAux, hfa]
      rcases ih bestIdx bestVal (i + 1) with ⟨heq, hall⟩ | ⟨k, hk, heq, hlt, hmin, hfirst⟩
      · left
        refine ⟨by rw [hstep, heq], ?_⟩
        intro p hp
        rcases List.mem_cons.mp hp with h | h
        · subst h; omega
        · exact hall p h
      · right
        refine ⟨k + 1, by simp; omega, ?_, ?_, ?_, ?_⟩
        · rw [hstep, heq]; omega
        · simp only [List.get_cons_succ]
          exact hlt
        · intro p hp
          simp only [List.get_cons_succ]
          rcases List.mem_cons.mp hp with h | h
          · subst h
            exact le_of_lt (lt_of_lt_of_le hlt (Nat.le_of_not_lt hfa))
          · exact hmin p h
        · intro j hj
          simp only [List.get_cons_succ]
          cases j with
          | zero =>
            exact lt_of_lt_of_le hlt (Nat.le_of_not_lt hfa)
          | succ j' =>
            have hj' : j' < k := by omega
            simpa using hfirst j' hj'

theorem selectHead_isFirstMin (f : InstanceTracker → Nat)
    (p : Nat × InstanceTracker) (rest : List (Nat × InstanceTracker)) :
    IsFirstMinBy f (p :: rest) (selectMinAux f rest 0 (f p.2) 1) := by
  rcases selectMinAux_spec f rest 0 (f p.2) 1 with ⟨heq, hall⟩ | ⟨k, hk, heq, hlt, hmin, hfirst⟩
  · rw [heq]
    refine ⟨by simp, ?_, ?_⟩
    · intro j hj
      match j with
      | 0 => simp
      | j' + 1 =>
        simp only [List.get_cons_succ, List.get]
        have hj' : j' < rest.length := by simpa using hj
        exact hall _ (rest.get_mem j' hj')
    · intro j hj
      omega
  · rw [heq]
    have hk1 : 1 + k = k + 1 := by omega
    refine ⟨by simp; omega, ?_, ?_⟩
    · intro j hj
      have hget : (p :: rest).get ⟨1 + k, by simp; omega⟩ = rest.get ⟨k, hk⟩ := by
        simp [hk1]
      rw [hget]
      match j with
      | 0 => exact le_of_lt hlt
      | j' + 1 =>
        simp only [List.get_cons_succ]
        have hj' : j' < rest.length := by simpa using hj
        exact hmin _ (rest.get_mem j' hj')
    · intro j hj
      have hget : ∀ hh : 1 + k < (p :: rest).length,
          (p :: rest).get ⟨1 + k, hh⟩ = rest.get ⟨k, hk⟩ := by
        intro hh; simp [hk1]
      rw [hget]
      match j with
      | 0 => exact hlt
      | j' + 1 =>
        simp only [List.get_cons_succ]
        have hj' : j' < k := by omega
        exact hfirst j' hj'

/-- C9: on a non-empty slice, the least-recently-used strategy returns the
first index of a tracker with minimal `last_used`, and the lowest-latency
strategy returns the first index of a tracker with minimal
`avg_response_time` (an empty window counting as zero); both indices are in
bounds. -/
theorem C9_strategies_select_first_min :
    (∀ trackers : List (Nat × InstanceTracker), trackers ≠ [] →
      IsFirstMinBy (fun t => t.last_used) trackers
        (LeastRecentlyUsedStrategy.select_instance trackers)) ∧
    (∀ trackers : List (Nat × InstanceTracker), trackers ≠ [] →
      IsFirstMinBy InstanceTracker.avg_response_time trackers
        (LowestLatencyStrategy.select_instance trackers)) ∧
    (∀ t : InstanceTracker, t.response_times = [] → t.avg_response_time = 0) := by
  refine ⟨?_, ?_, ?_⟩
  · intro trackers h
    match trackers with
    | [] => exact absurd rfl h
    | p :: rest => exact selectHead_isFirstMin _ p rest
  · intro trackers h
    match trackers with
    | [] => exact absurd rfl h
    | p :: rest => exact selectHead_isFirstMin _ p rest
  · intro t h
    simp [InstanceTracker.avg_response_time, h]

/-- Witness for C9 at a concrete two-element slice. -/
theorem C9_strategies_select_first_min_witness :
    IsFirstMinBy (fun t => t.last_used)
      [(4, InstanceTracker.mk 9 [] 0 0), (7, InstanceTracker.mk 3 [] 0 0)]
      (LeastRecentlyUsedStrategy.select_instance
        [(4, InstanceTracker.mk 9 [] 0 0), (7, InstanceTracker.mk 3 [] 0 0)]) ∧
    IsFirstMinBy InstanceTracker.avg_response_time
      [(4, InstanceTracker.mk 9 [100] 1 0), (7, InstanceTracker.mk 3 [] 0 0)]
      (LowestLatencyStrategy.select_instance
        [(4, InstanceTracker.mk 9 [100] 1 0), (7, InstanceTracker.mk 3 [] 0 0)]) := by
  constructor
  · exact C9_strategies_select_first_min.1 _ (by decide)
  · exact C9_strategies_select_first_min.2.1 _ (by decide)

/-! ### Error classification (C4) -/

/-- C4 counterexample: the OpenAI adapter's `generate` maps an HTTP 429
response whose body even contains the keyword text to `ApiError`, not
`RateLimit` — it never calls `LlmError::from_api_response`. -/
theorem C4_openai_429_is_ApiError :
    openaiGenerateHttpError 429 "Rate limit exceeded" =
      some (.ApiError "OpenAI API error: Rate limit exceeded") ∧
    (LlmError.ApiError "OpenAI API error: Rate limit exceeded").isRateLimit
      = false := by
  constructor <;> rfl

/-- C4 amended: `LlmError::from_api_response` classifies a failed call as
`RateLimit` exactly when the status is 429 or the lowercased body contains one
of the keywords, and as `ApiError` otherwise — but the OpenAI adapter's
`generate` does not use it: it maps every non-2xx outcome to `ApiError`. -/
theorem C4_classification_amended :
    (∀ (status : Nat) (msg : String),
      LlmError.from_api_response status msg = .RateLimit msg ↔
        (status = 429 ∨
          rateLimitKeywords.any
            (fun kw => stringContains (asciiLower msg) kw) = true)) ∧
    (∀ (status : Nat) (msg : String),
      ¬ (status = 429 ∨
          rateLimitKeywords.any
            (fun kw => stringContains (asciiLower msg) kw) = true) →
      LlmError.from_api_response status msg = .ApiError msg) ∧
    (∀ (status : Nat) (msg : String), ¬ (200 ≤ status ∧ status ≤ 299) →
      openaiGenerateHttpError status msg =
        some (.ApiError ("OpenAI API error: " ++ msg))) := by
  refine ⟨?_, ?_, ?_⟩
  · intro status msg
    unfold LlmError.from_api_response
    by_cases h429 : status = 429
    · simp [h429]
    · rw [if_neg h429]
      by_cases hkw : rateLimitKeywords.any
          (fun kw => stringContains (asciiLower msg) kw) = true
      · simp [hkw, h429]
      · simp only [hkw, if_neg]
        simp [h429, hkw]
  · intro status msg h
    push_neg at h
    obtain ⟨h429, hkw⟩ := h
    unfold LlmError.from_api_response
    rw [if_neg h429]
    simp only [hkw]
    simp
  · intro status msg h
    unfold openaiGenerateHttpError
    rw [if_neg h]

/-- Witness for C4 amended at concrete inputs. -/
theorem C4_classification_amended_witness :
    LlmError.from_api_response 500 "Quota Exceeded for org" =
      .RateLimit "Quota Exceeded for org" ∧
    LlmError.from_api_response 500 "internal error" = .ApiError "internal error" ∧
    openaiGenerateHttpError 429 "x" = some (.ApiError ("OpenAI API error: x")) := by
  refine ⟨?_, ?_, ?_⟩
  · exact (C4_classification_amended.1 500 "Quota Exceeded for org").mpr
      (Or.inr (by decide))
  · exact C4_classification_amended.2.1 500 "internal error" (by decide)
  · exact C4_classification_amended.2.2 429 "x" (by decide)

/-! ### Strategy configuration validation (C10) -/

/-- C10 counterexample: `validate_config` rejects both aliases that the claim
says are accepted; `parse_config` runs this check before the manager's alias
mapping can ever see the value. -/
theorem C10_aliases_rejected :
    validateStrategyCheck "latency" =
      .error (.ConfigError "Unknown strategy latency") ∧
    validateStrategyCheck "least_recently_used" =
      .error (.ConfigError "Unknown strategy least_recently_used") := by
  constructor <;> rfl

/-- C10 amended: configuration validation accepts `settings.strategy` exactly
when its lowercase form is one of `lru`, `lowest_latency`, `random`, and
returns a `ConfigError` otherwise — the aliases `least_recently_used` and
`latency` are rejected, even though `LlmManager::from_config` would map them
(and silently defaults unknown strategies to least-recently-used). -/
theorem C10_strategy_validation_amended :
    (∀ s : String, validateStrategyCheck s = .ok () ↔
      validStrategies.contains (asciiLower s) = true) ∧
    (∀ s : String, validStrategies.contains (asciiLower s) = false →
      validateStrategyCheck s =
        .error (.ConfigError ("Unknown strategy " ++ s))) ∧
    strategyFromConfig "least_recently_used" = .lru ∧
    strategyFromConfig "latency" = .lowestLatency ∧
    strategyFromConfig "LRU" = .lru ∧
    strategyFromConfig "bogus" = .lru := by
  refine ⟨?_, ?_, rfl, rfl, rfl, rfl⟩
  · intro s
    unfold validateStrategyCheck
    by_cases h : validStrategies.contains (asciiLower s) = true
    · simp [h]
    · simp [h]
  · intro s h
    unfold validateStrategyCheck
    rw [if_neg (by rw [h]; simp)]

/-- Witness for C10 amended at concrete inputs. -/
theorem C10_strategy_validation_amended_witness :
    validateStrategyCheck "Random" = .ok () ∧
    validateStrategyCheck "round_robin" =
      .error (.ConfigError "Unknown strategy round_robin") := by
  constructor
  · exact (C10_strategy_validation_amended.1 "Random").mpr (by decide)
  · exact C10_strategy_validation_amended.2.1 "round_robin" (by decide)

/-! ### Dispatcher loop lemmas -/

theorem selectCandidate_error_isConfig (st : ManagerState)
    (choice : List Nat → Nat) (task : Option String) (failed : List Nat)
    (e : LlmError) (h : selectCandidate st choice task failed = .error e) :
    e.isConfigError = true := by
  unfold selectCandidate at h
  dsimp only at h
  by_cases hb : (task.isSome && (candidateIds st task).isNone) = true
  · rw [if_pos hb] at h
    injection h with h
    rw [← h]; rfl
  · rw [if_neg hb] at h
    by_cases he : st.instances.isEmpty = true
    · rw [if_pos he] at h
      injection h with h
      rw [← h]; rfl
    · rw [if_neg he] at h
      by_cases hel :
          (eligibleIds st (candidateIds st task) failed).isEmpty = true
      · rw [if_pos hel] at h
        injection h with h
        rw [← h]; rfl
      · rw [if_neg hel] at h
        cases h

theorem selectCandidate_error_not_rl (st : ManagerState)
    (choice : List Nat → Nat) (task : Option String) (failed : List Nat)
    (e : LlmError) (h : selectCandidate st choice task failed = .error e) :
    e.isRateLimit = false := by
  have hc := selectCandidate_error_isConfig st choice task failed e h
  cases e <;> simp_all [LlmError.isConfigError, LlmError.isRateLimit]

theorem genLoopAux_invocations_le (st : ManagerState) (choice : List Nat → Nat)
    (oracle : Nat → Nat → Except LlmError String) (task : Option String)
    (mr : Nat) :
    ∀ (fuel attempts : Nat) (failed : List Nat),
      (genLoopAux st choice oracle task mr fuel attempts
        failed).2.invocations.length ≤ fuel := by
  intro fuel
  induction fuel with
  | zero => intro attempts failed; simp [genLoopAux]
  | succ fuel ih =>
    intro attempts failed
    simp only [genLoopAux]
    by_cases h : attempts ≤ mr
    · rw [if_pos h]
      cases hsel : selectCandidate st choice task failed with
      | error e =>
        simp only
        by_cases h2 : attempts + 1 > mr
        · rw [if_pos h2]; simp
        · rw [if_neg h2]
          simp only
          have hrec := ih (attempts + 1)
            (if e.isRateLimit then failed else failed ++ [0])
          omega
      | ok id =>
        simp only
        cases horacle : oracle attempts id with
        | ok content => simp
        | error e =>
          simp only
          by_cases h2 : attempts + 1 > mr
          · rw [if_pos h2]; simp
          · rw [if_neg h2]
            simp only [List.length_cons]
            have hrec := ih (attempts + 1)
              (if e.isRateLimit then failed else failed ++ [id])
            omega
    · rw [if_neg h]; simp

theorem genLoop_last_error (st : ManagerState) (choice : List Nat → Nat)
    (oracle : Nat → Nat → Except LlmError String) (task : Option String)
    (mr attempts : Nat) (failed : List Nat) (e : LlmError) (id : Nat)
    (h1 : attempts ≤ mr) (h2 : mr < attempts + 1)
    (hsel : instanceSelection st choice (oracle attempts) task failed =
      .error (e, id)) :
    (genLoop st choice oracle task mr attempts failed).1 = .error e := by
  have hfuel : mr + 1 - attempts = 1 := by omega
  unfold genLoop
  rw [hfuel]
  simp only [genLoopAux]
  rw [if_pos h1]
  unfold instanceSelection at hsel
  cases hcand : selectCandidate st choice task failed with
  | error e0 =>
    rw [hcand] at hsel
    simp only [Except.error.injEq, Prod.mk.injEq] at hsel
    simp only
    rw [if_pos (show attempts + 1 > mr by omega)]
    rw [hsel.1]
  | ok id0 =>
    rw [hcand] at hsel
    simp only at hsel
    cases horacle : oracle attempts id0 with
    | ok content => rw [horacle] at hsel; cases hsel
    | error e0 =>
      rw [horacle] at hsel
      simp only [Except.error.injEq, Prod.mk.injEq] at hsel
      simp only
      rw [horacle]
      simp only
      rw [if_pos (show attempts + 1 > mr by omega)]
      rw [hsel.1]

theorem genLoop_success (st : ManagerState) (choice : List Nat → Nat)
    (oracle : Nat → Nat → Except LlmError String) (task : Option String)
    (mr attempts : Nat) (failed : List Nat) (id : Nat) (content : String)
    (h1 : attempts ≤ mr)
    (hcand : selectCandidate st choice task failed = .ok id)
    (horacle : oracle attempts id = .ok content) :
    genLoop st choice oracle task mr attempts failed =
      (.ok content, ⟨[id], [], [failed]⟩) := by
  have hfuel : mr + 1 - attempts = (mr - attempts) + 1 := by omega
  unfold genLoop
  rw [hfuel]
  simp only [genLoopAux]
  rw [if_pos h1, hcand]
  simp only
  rw [horacle]

theorem genLoop_rl_step (st : ManagerState) (choice : List Nat → Nat)
    (oracle : Nat → Nat → Except LlmError String) (task : Option String)
    (mr attempts : Nat) (failed : List Nat) (id : Nat) (e : LlmError)
    (h1 : attempts + 1 ≤ mr)
    (hcand : selectCandidate st choice task failed = .ok id)
    (horacle : oracle attempts id = .error e) (hrl : e.isRateLimit = true) :
    genLoop st choice oracle task mr attempts failed =
      ((genLoop st choice oracle task mr (attempts + 1) failed).1,
        ⟨id :: (genLoop st choice oracle task mr (attempts + 1)
            failed).2.invocations,
          backoffSecs attempts :: (genLoop st choice oracle task mr
            (attempts + 1) failed).2.sleeps,
          failed :: (genLoop st choice oracle task mr (attempts + 1)
            failed).2.failedSets⟩) := by
  have hfuel : mr + 1 - attempts = (mr + 1 - (attempts + 1)) + 1 := by omega
  unfold genLoop
  rw [hfuel]
  simp only [genLoopAux]
  rw [if_pos (show attempts ≤ mr by omega), hcand]
  simp only
  rw [horacle]
  simp only [hrl]
  rw [if_neg (show ¬ (attempts + 1 > mr) by omega)]
  simp

theorem genLoop_err_step (st : ManagerState) (choice : List Nat → Nat)
    (oracle : Nat → Nat → Except LlmError String) (task : Option String)
    (mr attempts : Nat) (failed : List Nat) (id : Nat) (e : LlmError)
    (h1 : attempts + 1 ≤ mr)
    (hcand : selectCandidate st choice task failed = .ok id)
    (horacle : oracle attempts id = .error e) (hrl : e.isRateLimit = false) :
    genLoop st choice oracle task mr attempts failed =
      ((genLoop st choice oracle task mr (attempts + 1) (failed ++ [id])).1,
        ⟨id :: (genLoop st choice oracle task mr (attempts + 1)
            (failed ++ [id])).2.invocations,
          (genLoop st choice oracle task mr (attempts + 1)
            (failed ++ [id])).2.sleeps,
          failed :: (genLoop st choice oracle task mr (attempts + 1)
            (failed ++ [id])).2.failedSets⟩) := by
  have hfuel : mr + 1 - attempts = (mr + 1 - (attempts + 1)) + 1 := by omega
  unfold genLoop
  rw [hfuel]
  simp only [genLoopAux]
  rw [if_pos (show attempts ≤ mr by omega), hcand]
  simp only
  rw [horacle]
  simp only [hrl]
  rw [if_neg (show ¬ (attempts + 1 > mr) by omega)]
  simp

theorem mem_eligibleIds_not_failed (st : ManagerState)
    (cands : Option (List Nat)) (failed : List Nat) (id : Nat)
    (h : id ∈ eligibleIds st cands failed) : id ∉ failed := by
  unfold eligibleIds at h
  cases cands with
  | some ids =>
    simp only [List.mem_map] at h
    obtain ⟨p, hp, hpe⟩ := h
    rw [List.mem_filter] at hp
    have h2 := hp.2
    simp only [Bool.and_eq_true, Bool.not_eq_true'] at h2
    intro hmem
    rw [← hpe] at hmem
    have : failed.contains p.1 = true := by
      simpa [List.contains, List.elem_eq_mem] using hmem
    rw [this] at h2
    exact absurd h2.2 (by simp)
  | none =>
    simp only [List.mem_map] at h
    obtain ⟨p, hp, hpe⟩ := h
    rw [List.mem_filter] at hp
    have h2 := hp.2
    simp only [Bool.and_eq_true, Bool.not_eq_true'] at h2
    intro hmem
    rw [← hpe] at hmem
    have : failed.contains p.1 = true := by
      simpa [List.contains, List.elem_eq_mem] using hmem
    rw [this] at h2
    exact absurd h2.2 (by simp)

theorem selectCandidate_ok_mem (st : ManagerState) (choice : List Nat → Nat)
    (task : Option String) (failed : List Nat) (id : Nat)
    (hch : ∀ l : List Nat, l ≠ [] → choice l < l.length)
    (h : selectCandidate st choice task failed = .ok id) :
    id ∈ eligibleIds st (candidateIds st task) failed := by
  unfold selectCandidate at h
  dsimp only at h
  by_cases hb : (task.isSome && (candidateIds st task).isNone) = true
  · rw [if_pos hb] at h; cases h
  · rw [if_neg hb] at h
    by_cases he : st.instances.isEmpty = true
    · rw [if_pos he] at h; cases h
    · rw [if_neg he] at h
      by_cases hel :
          (eligibleIds st (candidateIds st task) failed).isEmpty = true
      · rw [if_pos hel] at h; cases h
      · rw [if_neg hel] at h
        injection h with h
        rw [← h]
        have hne : eligibleIds st (candidateIds st task) failed ≠ [] := by
          simpa [List.isEmpty_iff] using hel
        have hlt := hch _ hne
        rw [List.getD_eq_get _ _ hlt]
        exact List.get_mem _ _ _

theorem genLoopAux_failedSets_supset (st : ManagerState)
    (choice : List Nat → Nat) (oracle : Nat → Nat → Except LlmError String)
    (task : Option String) (mr : Nat) :
    ∀ (fuel attempts : Nat) (failed fs : List Nat),
      fs ∈ (genLoopAux st choice oracle task mr fuel attempts
        failed).2.failedSets → failed ⊆ fs := by
  intro fuel
  induction fuel with
  | zero => intro attempts failed fs h; simp [genLoopAux] at h
  | succ fuel ih =>
    intro attempts failed fs h
    simp only [genLoopAux] at h
    by_cases hle : attempts ≤ mr
    · rw [if_pos hle] at h
      cases hsel : selectCandidate st choice task failed with
      | error e =>
        rw [hsel] at h
        simp only at h
        by_cases h2 : attempts + 1 > mr
        · rw [if_pos h2] at h
          simp only [List.mem_singleton] at h
          subst h
          exact List.Subset.refl _
        · rw [if_neg h2] at h
          simp only [List.mem_cons] at h
          rcases h with h | h
          · subst h; exact List.Subset.refl _
          · have hsub := ih (attempts + 1)
              (if e.isRateLimit then failed else failed ++ [0]) fs h
            refine List.Subset.trans ?_ hsub
            split
            · exact List.Subset.refl _
            · exact List.subset_append_left _ _
      | ok id =>
        rw [hsel] at h
        simp only at h
        cases horacle : oracle attempts id with
        | ok content =>
          rw [horacle] at h
          simp only [List.mem_singleton] at h
          subst h
          exact List.Subset.refl _
        | error e =>
          rw [horacle] at h
          simp only at h
          by_cases h2 : attempts + 1 > mr
          · rw [if_pos h2] at h
            simp only [List.mem_singleton] at h
            subst h
            exact List.Subset.refl _
          · rw [if_neg h2] at h
            simp only [List.mem_cons] at h
            rcases h with h | h
            · subst h; exact List.Subset.refl _
            · have hsub := ih (attempts + 1)
                (if e.isRateLimit then failed else failed ++ [id]) fs h
              refine List.Subset.trans ?_ hsub
              split
              · exact List.Subset.refl _
              · exact List.subset_append_left _ _
    · rw [if_neg hle] at h; simp at h

theorem eligibleIds_empty_append (st : ManagerState)
    (cands : Option (List Nat)) (failed : List Nat) (x : Nat)
    (h : eligibleIds st cands failed = []) :
    eligibleIds st cands (failed ++ [x]) = [] := by
  unfold eligibleIds at h ⊢
  cases cands with
  | some ids =>
    rw [List.map_eq_nil, List.filter_eq_nil] at h ⊢
    intro p hp hcontra
    refine h p hp ?_
    simp only [Bool.and_eq_true, Bool.not_eq_true'] at hcontra ⊢
    refine ⟨hcontra.1, ?_⟩
    have := hcontra.2
    simp only [List.contains, List.elem_eq_mem, decide_eq_false_iff_not,
      List.mem_append, List.mem_singleton] at this ⊢
    intro hm
    exact this (Or.inl hm)
  | none =>
    rw [List.map_eq_nil, List.filter_eq_nil] at h ⊢
    intro p hp hcontra
    refine h p hp ?_
    simp only [Bool.and_eq_true, Bool.not_eq_true'] at hcontra ⊢
    refine ⟨hcontra.1, ?_⟩
    have := hcontra.2
    simp only [List.contains, List.elem_eq_mem, decide_eq_false_iff_not,
      List.mem_append, List.mem_singleton] at this ⊢
    intro hm
    exact this (Or.inl hm)

theorem selectCandidate_error_append (st : ManagerState)
    (choice : List Nat → Nat) (task : Option String) (failed : List Nat)
    (x : Nat) (e : LlmError)
    (h : selectCandidate st choice task failed = .error e) :
    ∃ e2, selectCandidate st choice task (failed ++ [x]) = .error e2 := by
  unfold selectCandidate at h ⊢
  dsimp only at h ⊢
  by_cases hb : (task.isSome && (candidateIds st task).isNone) = true
  · rw [if_pos hb]; exact ⟨_, rfl⟩
  · rw [if_neg hb] at h ⊢
    by_cases he : st.instances.isEmpty = true
    · rw [if_pos he]; exact ⟨_, rfl⟩
    · rw [if_neg he] at h ⊢
      by_cases hel :
          (eligibleIds st (candidateIds st task) failed).isEmpty = true
      · have h2 : (eligibleIds st (candidateIds st task)
            (failed ++ [x])).isEmpty = true := by
          rw [List.isEmpty_iff] at hel ⊢
          exact eligibleIds_empty_append _ _ _ _ hel
        rw [if_pos h2]
        exact ⟨_, rfl⟩
      · rw [if_neg hel] at h; cases h

theorem genLoopAux_sel_error_run (st : ManagerState) (choice : List Nat → Nat)
    (oracle : Nat → Nat → Except LlmError String) (task : Option String)
    (mr : Nat) :
    ∀ (fuel attempts : Nat) (failed : List Nat) (e0 : LlmError),
      attempts ≤ mr → fuel = mr + 1 - attempts →
      selectCandidate st choice task failed = .error e0 →
      (∃ e, (genLoopAux st choice oracle task mr fuel attempts
          failed).1 = .error e ∧ e.isConfigError = true) ∧
      (genLoopAux st choice oracle task mr fuel attempts
        failed).2.invocations = [] ∧
      (genLoopAux st choice oracle task mr fuel attempts
        failed).2.sleeps = [] ∧
      (genLoopAux st choice oracle task mr fuel attempts
        failed).2.failedSets.length = fuel := by
  intro fuel
  induction fuel with
  | zero => intro attempts failed e0 hle hf hsel; omega
  | succ fuel ih =>
    intro attempts failed e0 hle hf hsel
    have hrl : e0.isRateLimit = false :=
      selectCandidate_error_not_rl st choice task failed e0 hsel
    simp only [genLoopAux]
    rw [if_pos hle, hsel]
    simp only [hrl]
    by_cases h2 : attempts + 1 > mr
    · rw [if_pos h2]
      refine ⟨⟨e0, rfl, selectCandidate_error_isConfig st choice task
        failed e0 hsel⟩, rfl, by simp, by simp; omega⟩
    · rw [if_neg h2]
      obtain ⟨e2, hsel2⟩ := selectCandidate_error_append st choice task
        failed 0 e0 hsel
      have hrec := ih (attempts + 1) (failed ++ [0]) e2 (by omega)
        (by omega) hsel2
      simp only [Bool.false_eq_true, ite_false]
      refine ⟨⟨hrec.1.choose, hrec.1.choose_spec.1,
        hrec.1.choose_spec.2⟩, hrec.2.1, ?_, ?_⟩
      · simp [hrec.2.2.1]
      · simp [hrec.2.2.2]

theorem genLoopAux_const_error_run (st : ManagerState)
    (choice : List Nat → Nat) (oracle : Nat → Nat → Except LlmError String)
    (task : Option String) (mr : Nat) (e : LlmError)
    (hconst : ∀ f : List Nat, selectCandidate st choice task f = .error e) :
    ∀ (fuel attempts : Nat) (failed : List Nat),
      attempts ≤ mr → fuel = mr + 1 - attempts →
      (genLoopAux st choice oracle task mr fuel attempts
        failed).1 = .error e ∧
      (genLoopAux st choice oracle task mr fuel attempts
        failed).2.invocations = [] := by
  intro fuel
  induction fuel with
  | zero => intro attempts failed hle hf; omega
  | succ fuel ih =>
    intro attempts failed hle hf
    have hsel := hconst failed
    have hrl : e.isRateLimit = false :=
      selectCandidate_error_not_rl st choice task failed e hsel
    simp only [genLoopAux]
    rw [if_pos hle, hsel]
    simp only [hrl]
    by_cases h2 : attempts + 1 > mr
    · rw [if_pos h2]
      exact ⟨rfl, rfl⟩
    · rw [if_neg h2]
      have hrec := ih (attempts + 1) (failed ++ [0]) (by omega) (by omega)
      simp only [Bool.false_eq_true, ite_false]
      exact ⟨hrec.1, hrec.2⟩

theorem genLoop_adapter_err_terminal (st : ManagerState)
    (choice : List Nat → Nat) (oracle : Nat → Nat → Except LlmError String)
    (task : Option String) (mr attempts : Nat) (failed : List Nat) (id : Nat)
    (e : LlmError) (h1 : attempts ≤ mr) (h2 : mr < attempts + 1)
    (hcand : selectCandidate st choice task failed = .ok id)
    (horacle : oracle attempts id = .error e) :
    genLoop st choice oracle task mr attempts failed =
      (.error e,
        ⟨[id], if e.isRateLimit then [backoffSecs attempts] else [],
          [failed]⟩) := by
  have hfuel : mr + 1 - attempts = 1 := by omega
  unfold genLoop
  rw [hfuel]
  simp only [genLoopAux]
  rw [if_pos h1, hcand]
  simp only
  rw [horacle]
  simp only
  rw [if_pos (show attempts + 1 > mr by omega)]

/-! ### Retry budget and error propagation (C1) -/

/-- C1: for every non-streaming request the dispatcher invokes an adapter at
most `max_retries + 1` times, and when `attempts` exceeds `max_retries` after
an increment `generate_response` returns the error of the attempt that just
failed, unchanged. -/
theorem C1_retry_budget_and_last_error :
    (∀ (st : ManagerState) (choice : List Nat → Nat)
      (oracle : Nat → Nat → Except LlmError String) (r : GenerationRequest),
      (generateResponse st choice oracle
        (LlmManagerRequest.from_generation_request r)).2.invocations.length ≤
        st.maxRetries + 1) ∧
    (∀ (st : ManagerState) (choice : List Nat → Nat)
      (oracle : Nat → Nat → Except LlmError String) (task : Option String)
      (mr attempts : Nat) (failed : List Nat) (e : LlmError) (id : Nat),
      attempts ≤ mr → mr < attempts + 1 →
      instanceSelection st choice (oracle attempts) task failed =
        .error (e, id) →
      (genLoop st choice oracle task mr attempts failed).1 = .error e) := by
  constructor
  · intro st choice oracle r
    have h := genLoopAux_invocations_le st choice oracle r.task st.maxRetries
      (st.maxRetries + 1 - 0) 0 []
    unfold generateResponse genLoop
    simp only [LlmManagerRequest.from_generation_request]
    omega
  · intro st choice oracle task mr attempts failed e id h1 h2 hsel
    exact genLoop_last_error st choice oracle task mr attempts failed e id
      h1 h2 hsel

/-- Witness for C1 at a concrete exhausted run (`max_retries = 0`). -/
theorem C1_retry_budget_and_last_error_witness :
    (generateResponse (oneEnabledChat 0) (fun _ => 0)
      (fun _ _ => .error (.ApiError "boom"))
      (LlmManagerRequest.from_generation_request
        ⟨"hi", none, none⟩)).2.invocations.length ≤ 0 + 1 ∧
    (genLoop (oneEnabledChat 0) (fun _ => 0)
      (fun _ _ => .error (.ApiError "boom")) none 0 0 []).1 =
      .error (.ApiError "boom") := by
  constructor
  · exact C1_retry_budget_and_last_error.1 (oneEnabledChat 0) (fun _ => 0)
      (fun _ _ => .error (.ApiError "boom")) ⟨"hi", none, none⟩
  · exact C1_retry_budget_and_last_error.2 (oneEnabledChat 0) (fun _ => 0)
      (fun _ _ => .error (.ApiError "boom")) none 0 0 [] (.ApiError "boom") 0
      (by omega) (by omega) rfl

/-! ### Failed-instance tracking (C2) -/

/-- C2: after a rate-limited attempt the chosen instance is not added to the
failed set and is still eligible in the next iteration; after any other
adapter error its id is appended to the failed set, every later iteration's
failed set contains it, and the candidate filter excludes any id in the
failed set; and the failed set starts empty for each new request. -/
theorem C2_rate_limit_vs_failover :
    (∀ r : GenerationRequest,
      (LlmManagerRequest.from_generation_request r).attempts = 0 ∧
      (LlmManagerRequest.from_generation_request r).failed_instances = []) ∧
    (∀ (st : ManagerState) (choice : List Nat → Nat)
      (oracle : Nat → Nat → Except LlmError String) (task : Option String)
      (mr attempts : Nat) (failed : List Nat) (id : Nat) (e : LlmError),
      (∀ l : List Nat, l ≠ [] → choice l < l.length) →
      attempts + 1 ≤ mr →
      selectCandidate st choice task failed = .ok id →
      oracle attempts id = .error e → e.isRateLimit = true →
      genLoop st choice oracle task mr attempts failed =
        ((genLoop st choice oracle task mr (attempts + 1) failed).1,
          ⟨id :: (genLoop st choice oracle task mr (attempts + 1)
              failed).2.invocations,
            backoffSecs attempts :: (genLoop st choice oracle task mr
              (attempts + 1) failed).2.sleeps,
            failed :: (genLoop st choice oracle task mr (attempts + 1)
              failed).2.failedSets⟩) ∧
      id ∈ eligibleIds st (candidateIds st task) failed) ∧
    (∀ (st : ManagerState) (choice : List Nat → Nat)
      (oracle : Nat → Nat → Except LlmError String) (task : Option String)
      (mr attempts : Nat) (failed : List Nat) (id : Nat) (e : LlmError),
      attempts + 1 ≤ mr →
      selectCandidate st choice task failed = .ok id →
      oracle attempts id = .error e → e.isRateLimit = false →
      genLoop st choice oracle task mr attempts failed =
        ((genLoop st choice oracle task mr (attempts + 1)
            (failed ++ [id])).1,
          ⟨id :: (genLoop st choice oracle task mr (attempts + 1)
              (failed ++ [id])).2.invocations,
            (genLoop st choice oracle task mr (attempts + 1)
              (failed ++ [id])).2.sleeps,
            failed :: (genLoop st choice oracle task mr (attempts + 1)
              (failed ++ [id])).2.failedSets⟩) ∧
      (∀ fs ∈ (genLoop st choice oracle task mr (attempts + 1)
          (failed ++ [id])).2.failedSets, id ∈ fs) ∧
      (∀ f : List Nat, id ∈ f →
        id ∉ eligibleIds st (candidateIds st task) f)) := by
  refine ⟨?_, ?_, ?_⟩
  · intro r
    exact ⟨rfl, rfl⟩
  · intro st choice oracle task mr attempts failed id e hch h1 hcand horacle hrl
    refine ⟨genLoop_rl_step st choice oracle task mr attempts failed id e h1
      hcand horacle hrl, ?_⟩
    exact selectCandidate_ok_mem st choice task failed id hch hcand
  · intro st choice oracle task mr attempts failed id e h1 hcand horacle hrl
    refine ⟨genLoop_err_step st choice oracle task mr attempts failed id e h1
      hcand horacle hrl, ?_, ?_⟩
    · intro fs hfs
      unfold genLoop at hfs
      have hsub := genLoopAux_failedSets_supset st choice oracle task mr
        (mr + 1 - (attempts + 1)) (attempts + 1) (failed ++ [id]) fs hfs
      exact hsub (by simp)
    · intro f hf helig
      exact mem_eligibleIds_not_failed st (candidateIds st task) f id helig hf

/-- Witness for C2 at concrete rate-limit and api-error runs. -/
theorem C2_rate_limit_vs_failover_witness :
    (LlmManagerRequest.from_generation_request
      ⟨"hi", none, none⟩).failed_instances = [] ∧
    0 ∈ eligibleIds (oneEnabledChat 3)
      (candidateIds (oneEnabledChat 3) none) [] ∧
    0 ∉ eligibleIds (oneEnabledChat 3)
      (candidateIds (oneEnabledChat 3) none) [0] := by
  refine ⟨(C2_rate_limit_vs_failover.1 ⟨"hi", none, none⟩).2, ?_, ?_⟩
  · exact (C2_rate_limit_vs_failover.2.1 (oneEnabledChat 3) (fun _ => 0)
      (fun _ _ => .error (.RateLimit "rl")) none 3 0 [] 0 (.RateLimit "rl")
      (fun l hl => List.length_pos.mpr hl) (by omega) rfl rfl
      rfl).2
  · exact (C2_rate_limit_vs_failover.2.2 (oneEnabledChat 3) (fun _ => 0)
      (fun _ _ => .error (.ApiError "x")) none 3 0 [] 0 (.ApiError "x")
      (by omega) rfl rfl rfl).2.2 [0] (by decide)

/-! ### Backoff sleeps (C3) -/

/-- C3 counterexample: with a single always-rate-limited instance and
`max_retries = 3` the successive sleeps are 1, 2, 4, 8 seconds — the first
sleep is `2^0 = 1` second because the source computes `2^attempts` before
incrementing `attempts`, so the claimed sequence 2, 4, 8, 16 is wrong. -/
theorem C3_first_sleep_one_second :
    (generateResponse (buildManager [⟨true, ["chat"]⟩] 3) (fun _ => 0)
      (fun _ _ => .error (.RateLimit "rl"))
      (LlmManagerRequest.from_generation_request
        ⟨"hi", none, none⟩)).2.sleeps = [1, 2, 4, 8] ∧
    [1, 2, 4, 8] ≠ [2, 4, 8, 16] := by
  exact ⟨by decide, by decide⟩

theorem rl_run_sleeps (mr : Nat) :
    ∀ (fuel attempts : Nat), attempts ≤ mr → fuel = mr + 1 - attempts →
      (genLoopAux (buildManager [⟨true, ["chat"]⟩] mr) (fun _ => 0)
        (fun _ _ => .error (.RateLimit "rl")) none mr fuel attempts
        []).2.sleeps =
        (List.range fuel).map (fun i => backoffSecs (attempts + i)) := by
  intro fuel
  induction fuel with
  | zero => intro attempts h1 h2; simp [genLoopAux]
  | succ fuel ih =>
    intro attempts h1 h2
    have hsel : selectCandidate (buildManager [⟨true, ["chat"]⟩] mr)
        (fun _ => 0) none [] = .ok 0 := rfl
    simp only [genLoopAux]
    rw [if_pos h1, hsel]
    simp only [LlmError.isRateLimit, ite_true]
    by_cases h3 : attempts + 1 > mr
    · rw [if_pos h3]
      have hz : fuel = 0 := by omega
      subst hz
      rfl
    · rw [if_neg h3]
      have hrec := ih (attempts + 1) (by omega) (by omega)
      simp only [hrec]
      rw [List.range_succ_eq_map, List.map_cons, List.map_map]
      simp only [List.singleton_append, Nat.add_zero]
      congr 1
      apply List.map_congr_left
      intro i _
      simp only [Function.comp_apply]
      congr 1
      omega

/-- C3 amended: when an attempt fails with a rate-limit error the dispatcher
sleeps exactly `min(2^a, 60)` seconds where `a` is the attempts counter
before the increment (0 on the first failure); so a single always-rate-limited
instance produces the sleeps 1, 2, 4, …, capped at 60, one per attempt, and
for `a ≥ 6` the sleep is exactly 60 seconds. -/
theorem C3_backoff_amended :
    (∀ (st : ManagerState) (choice : List Nat → Nat)
      (oracle : Nat → Nat → Except LlmError String) (task : Option String)
      (mr attempts : Nat) (failed : List Nat) (id : Nat) (e : LlmError),
      attempts ≤ mr →
      selectCandidate st choice task failed = .ok id →
      oracle attempts id = .error e → e.isRateLimit = true →
      (genLoop st choice oracle task mr attempts failed).2.sleeps.head? =
        some (backoffSecs attempts)) ∧
    (∀ mr : Nat,
      (generateResponse (buildManager [⟨true, ["chat"]⟩] mr) (fun _ => 0)
        (fun _ _ => .error (.RateLimit "rl"))
        (LlmManagerRequest.from_generation_request
          ⟨"hi", none, none⟩)).2.sleeps =
        (List.range (mr + 1)).map backoffSecs) ∧
    (∀ a : Nat, 6 ≤ a → backoffSecs a = 60) := by
  refine ⟨?_, ?_, ?_⟩
  · intro st choice oracle task mr attempts failed id e h1 hcand horacle hrl
    by_cases h2 : attempts + 1 > mr
    · rw [genLoop_adapter_err_terminal st choice oracle task mr attempts
        failed id e h1 (by omega) hcand horacle]
      simp [hrl]
    · rw [genLoop_rl_step st choice oracle task mr attempts failed id e
        (by omega) hcand horacle hrl]
      rfl
  · intro mr
    have h := rl_run_sleeps mr (mr + 1) 0 (by omega) (by omega)
    unfold generateResponse genLoop
    simp only [LlmManagerRequest.from_generation_request]
    rw [show (buildManager [⟨true, ["chat"]⟩] mr).maxRetries = mr from rfl]
    rw [show mr + 1 - 0 = mr + 1 from rfl]
    rw [h]
    apply List.map_congr_left
    intro i _
    simp
  · intro a ha
    unfold backoffSecs
    have h64 : 60 ≤ 2 ^ a := by
      calc (60 : Nat) ≤ 2 ^ 6 := by norm_num
      _ ≤ 2 ^ a := Nat.pow_le_pow_right (by norm_num) ha
    omega

/-- Witness for C3 amended at a concrete rate-limited step. -/
theorem C3_backoff_amended_witness :
    (genLoop (oneEnabledChat 3) (fun _ => 0)
      (fun _ _ => .error (.RateLimit "rl")) none 3 0 []).2.sleeps.head? =
      some (backoffSecs 0) ∧
    backoffSecs 7 = 60 := by
  constructor
  · exact C3_backoff_amended.1 (oneEnabledChat 3) (fun _ => 0)
      (fun _ _ => .error (.RateLimit "rl")) none 3 0 [] 0 (.RateLimit "rl")
      (by omega) rfl rfl rfl
  · exact C3_backoff_amended.2.2 7 (by omega)

/-! ### The "no eligible instances" ConfigError (C5) -/

/-- C5 counterexample: with a single disabled instance and `max_retries = 2`
the "no eligible instances" ConfigError does not exit the loop immediately:
the loop runs 3 iterations, pushing sentinel id 0 into the failed set each
time, and the error finally returned is the last iteration's message, which
already counts 2 excluded instances. -/
theorem C5_config_error_is_retried :
    (generateResponse (oneDisabledChat 2) (fun _ => 0) (fun _ _ => .ok "x")
      (LlmManagerRequest.from_generation_request
        ⟨"hi", none, none⟩)).2.failedSets = [[], [0], [0, 0]] ∧
    (generateResponse (oneDisabledChat 2) (fun _ => 0) (fun _ _ => .ok "x")
      (LlmManagerRequest.from_generation_request ⟨"hi", none, none⟩)).1 =
      .error (.ConfigError
        "No enabled providers available (excluded 2 failed instances)") ∧
    ([[], [0], [0, 0]] : List (List Nat)).length ≠ 1 := by
  refine ⟨by decide, rfl, by decide⟩

/-- C5 amended: when candidate filtering yields no eligible instance, the
dispatcher performs no backoff and never invokes an adapter, but it does not
exit immediately: it treats the ConfigError like any non-rate-limit failure,
consuming one attempt per iteration until the budget is exhausted
(`max_retries + 1 - attempts` iterations), and then returns the final
iteration's ConfigError. -/
theorem C5_no_eligible_amended (st : ManagerState) (choice : List Nat → Nat)
    (oracle : Nat → Nat → Except LlmError String) (task : Option String)
    (mr attempts : Nat) (failed : List Nat) (e0 : LlmError)
    (h1 : attempts ≤ mr)
    (hsel : selectCandidate st choice task failed = .error e0) :
    (∃ e, (genLoop st choice oracle task mr attempts failed).1 = .error e ∧
      e.isConfigError = true) ∧
    (genLoop st choice oracle task mr attempts failed).2.invocations = [] ∧
    (genLoop st choice oracle task mr attempts failed).2.sleeps = [] ∧
    (genLoop st choice oracle task mr attempts
      failed).2.failedSets.length = mr + 1 - attempts := by
  unfold genLoop
  exact genLoopAux_sel_error_run st choice oracle task mr
    (mr + 1 - attempts) attempts failed e0 h1 rfl hsel

/-- Witness for C5 amended at the concrete disabled-instance run. -/
theorem C5_no_eligible_amended_witness :
    (∃ e, (genLoop (oneDisabledChat 2) (fun _ => 0) (fun _ _ => .ok "x")
      none 2 0 []).1 = .error e ∧ e.isConfigError = true) ∧
    (genLoop (oneDisabledChat 2) (fun _ => 0) (fun _ _ => .ok "x")
      none 2 0 []).2.failedSets.length = 2 + 1 - 0 := by
  have h := C5_no_eligible_amended (oneDisabledChat 2) (fun _ => 0)
    (fun _ _ => .ok "x") none 2 0 []
    (.ConfigError "No enabled providers available") (by omega) rfl
  exact ⟨h.1, h.2.2.2⟩

/-! ### Routing-index invariants (C7) -/

theorem lookupTM_push (m : List (String × List Nat)) (t : String) (id : Nat)
    (T : String) :
    lookupTM (pushTaskEntry m t id) T =
      if T = t then some ((lookupTM m t).getD [] ++ [id])
      else lookupTM m T := by
  induction m with
  | nil =>
    by_cases h : T = t
    · subst h; simp [pushTaskEntry, lookupTM]
    · have htT : ¬ t = T := fun hh => h hh.symm
      simp [pushTaskEntry, lookupTM, h, htT]
  | cons p rest ih =>
    by_cases hpt : p.1 = t
    · by_cases hTt : T = t
      · subst hTt
        simp [pushTaskEntry, lookupTM, hpt]
      · have hpT : ¬ p.1 = T := fun hh => hTt (by rw [← hh, hpt])
        have htT : ¬ t = T := fun hh => hTt hh.symm
        simp [pushTaskEntry, lookupTM, hpt, hpT, hTt, htT]
    · by_cases hpT : p.1 = T
      · have hTt : ¬ T = t := fun hh => hpt (by rw [hpT, hh])
        simp [pushTaskEntry, lookupTM, hpt, hpT, hTt]
      · by_cases hTt : T = t
        · subst hTt
          simp [pushTaskEntry, lookupTM, hpt, hpT, ih]
        · simp [pushTaskEntry, lookupTM, hpt, hpT, hTt, ih]

theorem lookup_foldl_push_mem (tasks : List String) (id : Nat) :
    ∀ (m : List (String × List Nat)) (T : String) (ids : List Nat),
      lookupTM (tasks.foldl (fun mm t => pushTaskEntry mm t id) m) T =
        some ids →
      ∀ x ∈ ids,
        (∃ ids0, lookupTM m T = some ids0 ∧ x ∈ ids0) ∨
          (x = id ∧ T ∈ tasks) := by
  induction tasks with
  | nil =>
    intro m T ids h x hx
    left
    exact ⟨ids, h, hx⟩
  | cons t ts ih =>
    intro m T ids h x hx
    simp only [List.foldl_cons] at h
    rcases ih (pushTaskEntry m t id) T ids h x hx with
      ⟨ids0, hl, hx0⟩ | ⟨hxid, hT⟩
    · rw [lookupTM_push] at hl
      by_cases hTt : T = t
      · rw [if_pos hTt] at hl
        injection hl with hl
        rw [← hl, List.mem_append] at hx0
        rcases hx0 with hx0 | hx0
        · subst hTt
          cases hmt : lookupTM m T with
          | none => rw [hmt] at hx0; simp at hx0
          | some ids1 =>
            rw [hmt] at hx0
            simp only [Option.getD_some] at hx0
            left
            exact ⟨ids1, rfl, hx0⟩
        · right
          simp only [List.mem_singleton] at hx0
          exact ⟨hx0, hTt ▸ List.mem_cons_self t ts⟩
      · rw [if_neg hTt] at hl
        left
        exact ⟨ids0, hl, hx0⟩
    · right
      exact ⟨hxid, List.mem_cons_of_mem _ hT⟩

theorem lookup_foldl_push_none (tasks : List String) (id : Nat) :
    ∀ (m : List (String × List Nat)) (T : String),
      T ∉ tasks → lookupTM m T = none →
      lookupTM (tasks.foldl (fun mm t => pushTaskEntry mm t id) m) T =
        none := by
  induction tasks with
  | nil => intro m T _ h; exact h
  | cons t ts ih =>
    intro m T hT h
    simp only [List.foldl_cons]
    apply ih
    · exact fun hmem => hT (List.mem_cons_of_mem _ hmem)
    · rw [lookupTM_push,
        if_neg (fun he => hT (by rw [he]; exact List.mem_cons_self t ts)), h]

theorem addInstance_routingInv (st : ManagerState) (inst : ManagerInstance)
    (h : RoutingInv st) : RoutingInv (addInstanceToManager st inst) := by
  intro T ids hl x hx
  unfold lookupTask addInstanceToManager at hl
  dsimp only at hl
  rcases lookup_foldl_push_mem inst.supportedTasks st.instanceCounter
      st.tasksToInstances T ids hl x hx with ⟨ids0, hl0, hx0⟩ | ⟨hxid, hT⟩
  · obtain ⟨inst0, hmem, hsupp⟩ := h T ids0 hl0 x hx0
    refine ⟨inst0, ?_, hsupp⟩
    unfold addInstanceToManager
    dsimp only
    exact List.mem_append_left _ hmem
  · subst hxid
    refine ⟨inst, ?_, hT⟩
    unfold addInstanceToManager
    dsimp only
    exact List.mem_append_right _ (by simp)

theorem foldl_add_routingInv (insts : List ManagerInstance) :
    ∀ st : ManagerState, RoutingInv st →
      RoutingInv (insts.foldl addInstanceToManager st) := by
  induction insts with
  | nil => intro st h; exact h
  | cons inst rest ih =>
    intro st h
    simp only [List.foldl_cons]
    exact ih _ (addInstance_routingInv st inst h)

theorem buildManager_routingInv (insts : List ManagerInstance) (mr : Nat) :
    RoutingInv (buildManager insts mr) := by
  apply foldl_add_routingInv
  intro T ids hl
  cases hl

theorem buildManager_lookup_none (insts : List ManagerInstance) (mr : Nat)
    (T : String) (h : ∀ inst ∈ insts, T ∉ inst.supportedTasks) :
    lookupTask (buildManager insts mr) T = none := by
  suffices h2 : ∀ st : ManagerState,
      (∀ inst ∈ insts, T ∉ inst.supportedTasks) → lookupTask st T = none →
      lookupTask (insts.foldl addInstanceToManager st) T = none by
    exact h2 (LlmManager.new mr) h rfl
  clear h
  induction insts with
  | nil => intro st _ hn; exact hn
  | cons inst rest ih =>
    intro st hall hn
    simp only [List.foldl_cons]
    apply ih
    · intro i hi; exact hall i (List.mem_cons_of_mem _ hi)
    · unfold lookupTask addInstanceToManager
      dsimp only
      exact lookup_foldl_push_none inst.supportedTasks st.instanceCounter
        st.tasksToInstances T (hall inst (List.mem_cons_self _ _)) hn

theorem mem_eligibleIds_some_mem (st : ManagerState) (ids failed : List Nat)
    (id : Nat) (h : id ∈ eligibleIds st (some ids) failed) : id ∈ ids := by
  unfold eligibleIds at h
  simp only [List.mem_map] at h
  obtain ⟨p, hp, hpe⟩ := h
  rw [List.mem_filter] at hp
  have h2 := hp.2
  simp only [Bool.and_eq_true] at h2
  rw [← hpe]
  have h3 := h2.1.1
  simpa [List.contains, List.elem_eq_mem] using h3

theorem selectCandidate_unmapped (st : ManagerState) (choice : List Nat → Nat)
    (T : String) (failed : List Nat) (h : lookupTask st T = none) :
    selectCandidate st choice (some T) failed =
      .error (.ConfigError (noProvidersForTaskMsg T)) := by
  unfold selectCandidate
  dsimp only
  have hc : candidateIds st (some T) = none := by
    simp [candidateIds, h]
  rw [hc]
  rw [if_pos (by simp)]
  rfl

/-- C7: for a request naming task `T`, any instance the dispatcher selects
declares support for `T` in its supported-task map; and when no registered
instance supports `T`, the request fails with
`ConfigError("No providers available for task: T")` and no adapter is ever
invoked. -/
theorem C7_task_routing :
    (∀ (insts : List ManagerInstance) (mr : Nat) (choice : List Nat → Nat)
      (T : String) (failed : List Nat) (id : Nat),
      (∀ l : List Nat, l ≠ [] → choice l < l.length) →
      selectCandidate (buildManager insts mr) choice (some T) failed =
        .ok id →
      ∃ inst, (id, inst) ∈ (buildManager insts mr).instances ∧
        T ∈ inst.supportedTasks) ∧
    (∀ (insts : List ManagerInstance) (mr : Nat) (choice : List Nat → Nat)
      (oracle : Nat → Nat → Except LlmError String) (T prompt : String)
      (params : Option (List (String × String))),
      (∀ inst ∈ insts, T ∉ inst.supportedTasks) →
      (generateResponse (buildManager insts mr) choice oracle
        (LlmManagerRequest.from_generation_request
          ⟨prompt, some T, params⟩)).1 =
        .error (.ConfigError (noProvidersForTaskMsg T)) ∧
      (generateResponse (buildManager insts mr) choice oracle
        (LlmManagerRequest.from_generation_request
          ⟨prompt, some T, params⟩)).2.invocations = []) := by
  constructor
  · intro insts mr choice T failed id hch hsel
    have hmem := selectCandidate_ok_mem (buildManager insts mr) choice
      (some T) failed id hch hsel
    have hcands : ∃ ids, candidateIds (buildManager insts mr) (some T) =
        some ids := by
      cases hc : candidateIds (buildManager insts mr) (some T) with
      | none =>
        exfalso
        unfold selectCandidate at hsel
        dsimp only at hsel
        rw [hc] at hsel
        rw [if_pos (by simp)] at hsel
        cases hsel
      | some ids => exact ⟨ids, rfl⟩
    obtain ⟨ids, hc⟩ := hcands
    rw [hc] at hmem
    have hid : id ∈ ids :=
      mem_eligibleIds_some_mem (buildManager insts mr) ids failed id hmem
    have hlook : lookupTask (buildManager insts mr) T = some ids := by
      simpa [candidateIds] using hc
    exact buildManager_routingInv insts mr T ids hlook id hid
  · intro insts mr choice oracle T prompt params hT
    have hnone := buildManager_lookup_none insts mr T hT
    have hconst : ∀ f : List Nat,
        selectCandidate (buildManager insts mr) choice (some T) f =
          .error (.ConfigError (noProvidersForTaskMsg T)) :=
      fun f => selectCandidate_unmapped (buildManager insts mr) choice T f
        hnone
    have h := genLoopAux_const_error_run (buildManager insts mr) choice
      oracle (some T) (buildManager insts mr).maxRetries
      (.ConfigError (noProvidersForTaskMsg T)) hconst
      ((buildManager insts mr).maxRetries + 1 - 0) 0 [] (by omega) rfl
    exact h

/-- Witness for C7 at concrete routed and unroutable tasks. -/
theorem C7_task_routing_witness :
    (∃ inst, (0, inst) ∈ (buildManager [⟨true, ["chat"]⟩] 1).instances ∧
      "chat" ∈ inst.supportedTasks) ∧
    (generateResponse (buildManager [⟨true, ["summary"]⟩] 1) (fun _ => 0)
      (fun _ _ => .ok "x")
      (LlmManagerRequest.from_generation_request
        ⟨"hi", some "code", none⟩)).1 =
      .error (.ConfigError (noProvidersForTaskMsg "code")) := by
  constructor
  · exact C7_task_routing.1 [⟨true, ["chat"]⟩] 1 (fun _ => 0) "chat" [] 0
      (fun l hl => List.length_pos.mpr hl) rfl
  · exact (C7_task_routing.2 [⟨true, ["summary"]⟩] 1 (fun _ => 0)
      (fun _ _ => .ok "x") "code" "hi" none (by decide)).1

/-! ### Batch shape (C8) -/

/-- C8: `generate_sequentially` and `batch_generate` return one response per
request, positionally (element `i` is the wrapped outcome of request `i`, and
the two entry points agree), and they never fail as a whole: every element is
an `LlmManagerResponse` whose `success` flag and `error` field are consistent
(content with no error on success, an error string otherwise). -/
theorem C8_batch_positional :
    (∀ (st : ManagerState) (choice : List Nat → Nat)
      (oracle : LlmManagerRequest → Nat → Nat → Except LlmError String)
      (requests : List GenerationRequest),
      (generateSequentially st choice oracle requests).length =
        requests.length ∧
      (batchGenerate st choice oracle requests).length = requests.length ∧
      batchGenerate st choice oracle requests =
        generateSequentially st choice oracle requests) ∧
    (∀ (st : ManagerState) (choice : List Nat → Nat)
      (oracle : LlmManagerRequest → Nat → Nat → Except LlmError String)
      (requests : List GenerationRequest) (i : Nat),
      i < requests.length →
      ∀ hi : i < requests.length,
      (generateSequentially st choice oracle requests)[i]? =
        some (toManagerResponse (generateResponse st choice
          (oracle (LlmManagerRequest.from_generation_request
            (requests.get ⟨i, hi⟩)))
          (LlmManagerRequest.from_generation_request
            (requests.get ⟨i, hi⟩))).1)) ∧
    (∀ r : Except LlmError String,
      ((toManagerResponse r).success = true ∧
        (toManagerResponse r).error = none) ∨
      ((toManagerResponse r).success = false ∧
        ∃ s, (toManagerResponse r).error = some s)) := by
  refine ⟨?_, ?_, ?_⟩
  · intro st choice oracle requests
    refine ⟨?_, ?_, ?_⟩
    · simp [generateSequentially]
    · simp [batchGenerate]
    · simp only [batchGenerate, generateSequentially, List.map_map]
      rfl
  · intro st choice oracle requests i _ hi
    unfold generateSequentially
    rw [List.getElem?_map]
    rw [List.getElem?_eq_getElem hi]
    simp [List.get_eq_getElem]
  · intro r
    cases r with
    | ok content => left; exact ⟨rfl, rfl⟩
    | error e => right; exact ⟨rfl, e.toMessage, rfl⟩

/-- Witness for C8 at a concrete one-element batch. -/
theorem C8_batch_positional_witness :
    (generateSequentially (oneEnabledChat 1) (fun _ => 0)
      (fun _ _ _ => .ok "out") [⟨"a", none, none⟩])[0]? =
      some (toManagerResponse (generateResponse (oneEnabledChat 1)
        (fun _ => 0)
        ((fun _ _ _ => .ok "out") (LlmManagerRequest.from_generation_request
          ⟨"a", none, none⟩))
        (LlmManagerRequest.from_generation_request ⟨"a", none, none⟩)).1) := by
  exact C8_batch_positional.2.1 (oneEnabledChat 1) (fun _ => 0)
    (fun _ _ _ => .ok "out") [⟨"a", none, none⟩] 0 (by decide) (by decide)

end FlyLlm
